import Mathlib

/-!
Shallow embedding of the Separation-Agents flowsheet core
(`src/sep_agents/dsl/schemas.py`, `src/sep_agents/critic/checks.py`,
`src/sep_agents/units/*.py`, `src/sep_agents/cost/tea.py`,
`src/sep_agents/orchestrator/planner.py`,
`src/sep_agents/orchestrator/orchestrator_agent.py`,
`src/sep_agents/opt/bo.py`, `src/sep_agents/opt/optimization_agent.py`).

Python floats are embedded as rationals (every constant the claims touch is
exactly representable and the arithmetic involved is exact at those inputs);
Python dicts are embedded as association lists in insertion order, with the
overwrite-on-update semantics of `dict.update` made explicit (`updKey`);
fallible constructors/validators return `Except String`.  Mutation is
embedded by explicit state passing: an operation that can write into a
caller-visible object returns the post-state of that object alongside its
result.
-/

namespace SepAgents

/-- Embedded `PSD` (schemas.py): particle size distribution carried by a stream. -/
structure PSD where
  bins_um : List ℚ
  mass_frac : List ℚ
deriving DecidableEq, Repr

/-- The guard of `PSD._sum_to_one` (schemas.py): the mass-fraction sum must
lie in `[0.99, 1.01]`. -/
def psdSumOk (mass_frac : List ℚ) : Bool :=
  decide ((99/100 : ℚ) ≤ mass_frac.sum) && decide (mass_frac.sum ≤ (101/100 : ℚ))

/-- Validated construction of a `PSD`: pydantic runs `_sum_to_one` on the
`mass_frac` field and raises a `ValueError` when the guard fails. -/
def PSD.make (bins_um : List ℚ) (mass_frac : List ℚ) : Except String PSD :=
  if psdSumOk mass_frac then
    .ok { bins_um := bins_um, mass_frac := mass_frac }
  else
    .error "PSD mass fractions sum out of range, expected ~1.0"

/-- Embedded `Phase` literal type (schemas.py). -/
inductive Phase where
  | solid
  | liquid
  | gas
deriving DecidableEq, Repr

/-- Embedded `LiberationMatrix` (schemas.py). -/
structure LiberationMatrix where
  minerals : List String
  matrix : List (List ℚ)
deriving DecidableEq, Repr

/-- Embedded `Stream` (schemas.py).  `composition_wt` is a dict embedded as an
association list. -/
structure Stream where
  name : String
  phase : Phase
  temperature_K : ℚ := 29815/100
  pressure_Pa : ℚ := 101325
  composition_wt : List (String × ℚ) := []
  psd : Option PSD := none
  liberation : Option LiberationMatrix := none
  pH : Option ℚ := none
  Eh_mV : Option ℚ := none
  solids_wtfrac : Option ℚ := none
deriving DecidableEq, Repr

/-- Embedded `UnitOp` (schemas.py).  pydantic coerces `params` to `Dict[str, float]`,
embedded as an association list of rationals. -/
structure UnitOp where
  id : String
  type : String
  params : List (String × ℚ) := []
  inputs : List String := []
  outputs : List String := []
deriving DecidableEq, Repr

/-- Embedded `UNIT_PARAM_SPEC` (schemas.py): type tag → (required names, optional
names); a lookup in the dict literal. -/
def UNIT_PARAM_SPEC (t : String) : Option (List String × List String) :=
  if t = "mill" then some (["fineness_factor"], ["E_specific_kWhpt", "media_type"])
  else if t = "cyclone" then some (["d50c_um"], ["sharpness_alpha", "pressure_kPa"])
  else if t = "lims" then some (["magnetic_recovery"], ["field_T"])
  else if t = "flotation_bank" then
    some (["k_s_1ps", "R_inf"], ["air_rate_m3m2s", "froth_recovery", "stages"])
  else none

/-- The `UnitOp.check_params` validator body (schemas.py) read with
`values` as the mapping of previously-validated fields — the pydantic v1
contract the body assumes and the behavior spec §4.1 describes: reject an
unregistered type tag, then the first missing required parameter, then the
first parameter name outside required ∪ optional.  Under pydantic v2 — the
only pydantic generation providing the `field_validator` decorator the
file imports — execution never reaches these checks; see
`check_params_v2`. -/
def check_params (unit_type : String) (v : List (String × ℚ)) : Except String Unit :=
  match UNIT_PARAM_SPEC unit_type with
  | none => .error ("Unknown unit type: " ++ unit_type)
  | some spec =>
    match spec.1.find? (fun p => !(v.any (fun kv => kv.1 == p))) with
    | some p =>
      .error ("Missing required parameter " ++ p ++ " for unit type " ++ unit_type)
    | none =>
      match v.find? (fun kv => !(spec.1.contains kv.1) && !(spec.2.contains kv.1)) with
      | some kv =>
        .error ("Unknown parameter " ++ kv.1 ++ " for unit type " ++ unit_type)
      | none => .ok ()

/-- Embedded `Flowsheet` (schemas.py). -/
structure Flowsheet where
  name : String
  units : List UnitOp
  streams : List Stream
deriving DecidableEq, Repr

/-- Embedded `Flowsheet.validate_graph` (schemas.py): every referenced stream name
must be declared; the feed set (streams produced by no unit) and the
product/sink set (streams consumed by no unit) must both be nonempty. -/
def validate_graph (fs : Flowsheet) : Except String Unit :=
  let stream_names := fs.streams.map (fun s => s.name)
  match fs.units.find? (fun u =>
      (u.inputs ++ u.outputs).any (fun s => !(stream_names.contains s))) with
  | some u => .error ("Unit " ++ u.id ++ " references unknown stream")
  | none =>
    let used_as_input := (fs.units.map (fun u => u.inputs)).flatten
    let used_as_output := (fs.units.map (fun u => u.outputs)).flatten
    let feeds := stream_names.filter (fun s => !(used_as_output.contains s))
    let prods := stream_names.filter (fun s => !(used_as_input.contains s))
    if feeds.isEmpty then .error "No feed streams (not produced by any unit)."
    else if prods.isEmpty then .error "No product/sink streams (not consumed by any unit)."
    else .ok ()

/-- Embedded `Critic.check` (checks.py): report the first unit with no declared
input or no declared output; never raises. -/
def Critic.check (fs : Flowsheet) : Bool × String :=
  match fs.units.find? (fun u => u.inputs.isEmpty || u.outputs.isEmpty) with
  | some u => (false, "Unit " ++ u.id ++ " missing inputs/outputs")
  | none => (true, "ok")

/-- Embedded `UnitResult` (units/base.py): output streams by role, local KPIs. -/
structure UnitResult where
  outputs : List (String × Stream)
  kpis : List (String × ℚ)
deriving DecidableEq, Repr

/-- Embedded `self.params.get(k, d)` on a unit's `Dict[str, float]` parameter dict. -/
def pget (params : List (String × ℚ)) (k : String) (d : ℚ) : ℚ :=
  match params.find? (fun kv => kv.1 == k) with
  | some kv => kv.2
  | none => d

/-- Embedded `Mill.simulate` (units/comminution.py).  The second component is the
feed stream as the caller sees it after the call: the product is built from
`feed.copy(update=...)`, so the feed object is never written to. -/
def Mill.simulate (params : List (String × ℚ)) (feed : Stream) : UnitResult × Stream :=
  match feed.psd with
  | none => (⟨[("product", feed)], [("E_specific_kWhpt", 0)]⟩, feed)
  | some psd =>
    let factor := pget params "fineness_factor" (7/10)
    let new_bins := psd.bins_um.map (fun b => b * factor)
    let new_psd : PSD := { bins_um := new_bins, mass_frac := psd.mass_frac }
    let prod : Stream := { feed with psd := some new_psd }
    let e := pget params "E_specific_kWhpt" 8
    (⟨[("product", prod)], [("E_specific_kWhpt", e)]⟩, feed)

/-- Embedded `Cyclone.simulate` (units/cyclone.py): both branches are copies of the
feed; the feed is left unchanged. -/
def Cyclone.simulate (params : List (String × ℚ)) (feed : Stream) : UnitResult × Stream :=
  let split := pget params "underflow_split" (3/5)
  (⟨[("overflow", feed), ("underflow", feed)], [("UF_split", split)]⟩, feed)

/-- Embedded `LIMS.simulate` (units/magnetic.py). -/
def LIMS.simulate (params : List (String × ℚ)) (feed : Stream) : UnitResult × Stream :=
  let rec_ := pget params "mag_recovery" (4/5)
  (⟨[("concentrate", feed), ("tailings", feed)], [("mag_rec", rec_)]⟩, feed)

/-- Embedded `Flotation.simulate` (units/flotation.py). -/
def Flotation.simulate (params : List (String × ℚ)) (feed : Stream) : UnitResult × Stream :=
  let k := pget params "k" (1/2)
  (⟨[("froth", feed), ("tail", feed)], [("k", k)]⟩, feed)

/-- Embedded `Leach.simulate` (units/hydromet.py). -/
def Leach.simulate (params : List (String × ℚ)) (feed : Stream) : UnitResult × Stream :=
  let ext := pget params "extraction" (3/5)
  (⟨[("pregnant", feed), ("residue", feed)], [("ext", ext)]⟩, feed)

/-- Embedded `Thickener.simulate` (units/thickener.py). -/
def Thickener.simulate (_params : List (String × ℚ)) (feed : Stream) : UnitResult × Stream :=
  (⟨[("underflow", feed), ("overflow", feed)], [("flux", 1)]⟩, feed)

/-- Embedded `UNIT_REGISTRY` (planner.py): type tag → simulation behavior. -/
def UNIT_REGISTRY (t : String) :
    Option (List (String × ℚ) → Stream → UnitResult × Stream) :=
  if t = "mill" then some Mill.simulate
  else if t = "cyclone" then some Cyclone.simulate
  else if t = "lims" then some LIMS.simulate
  else if t = "flotation" then some Flotation.simulate
  else if t = "leach" then some Leach.simulate
  else if t = "thickener" then some Thickener.simulate
  else none

/-- Embedded `estimate_opex_kwh_reagents` (cost/tea.py): sum of the KPI dict's
values. -/
def estimate_opex_kwh_reagents (unit_kpis : List (String × ℚ)) : ℚ :=
  (unit_kpis.map (fun kv => kv.2)).sum

/-- Python `dict` update of one key: overwrite in place when the key is
present, append otherwise (insertion-order semantics of `d[k] = v` /
`dict.update`). -/
def updKey {α : Type} (m : List (String × α)) (k : String) (v : α) : List (String × α) :=
  if m.any (fun kv => kv.1 == k) then
    m.map (fun kv => if kv.1 == k then (k, v) else kv)
  else
    m ++ [(k, v)]

/-- Embedded `feed_name = u.inputs[0] if u.inputs else None` followed by
`next((s for s in fs.streams if s.name == feed_name), None)`
(planner.py, `run_once`). -/
def findFeed (streams : List Stream) (u : UnitOp) : Option Stream :=
  match u.inputs.head? with
  | none => none
  | some fn => streams.find? (fun s => s.name == fn)

/-- Replace the first stream named `n` with `v`: mutation of the one stream
object bound by the `next(...)` lookup is visible to the caller at exactly
that list position. -/
def setFirstStream : List Stream → String → Stream → List Stream
  | [], _, _ => []
  | s :: rest, n, v =>
    if s.name == n then v :: rest else s :: setFirstStream rest n v

/-- The body of the per-unit loop of `Orchestrator.run_once` (planner.py):
skip a unit whose type tag is unregistered or whose feed stream is not
found, otherwise dispatch `simulate(feed)`, merge its KPIs keyed
`"<unit_id>.<kpi>"`, and record the feed stream's post-call state. -/
def unitStep (st : List Stream × List (String × ℚ)) (u : UnitOp) :
    List Stream × List (String × ℚ) :=
  match UNIT_REGISTRY u.type with
  | none => st
  | some sim =>
    match findFeed st.1 u with
    | none => st
    | some feed =>
      let r := sim u.params feed
      let kpis := r.1.kpis.foldl
        (fun m kv => updKey m (u.id ++ "." ++ kv.1) kv.2) st.2
      (setFirstStream st.1 (feed.name) r.2, kpis)

/-- Result of `Orchestrator.run_once` (planner.py). -/
inductive RunResult where
  | invalid (reason : String)
  | ok (kpis : List (String × ℚ)) (opex_score : ℚ)
deriving DecidableEq, Repr

/-- Embedded `Orchestrator.run_once` (planner.py), with the post-state of the
flowsheet returned alongside the result.  The Python body never assigns
into `fs`; the only objects it hands to potentially mutating code are the
feed streams passed to `simulate`, whose post-call states are threaded
through `unitStep`. -/
def run_once (fs : Flowsheet) : RunResult × Flowsheet :=
  match Critic.check fs with
  | (false, msg) => (.invalid msg, fs)
  | (true, _) =>
    let st := fs.units.foldl unitStep (fs.streams, [])
    let opex := estimate_opex_kwh_reagents st.2
    (.ok st.2 opex, { fs with streams := st.1 })

/-- A Python value held by a `Dict[str, Any]` parameter dict, as far as
`SimpleOptimizer.suggest_edit` (opt/bo.py) distinguishes them: numeric
(`isinstance(v, (int, float))`) or not. -/
inductive PVal where
  | num (v : ℚ)
  | nonnum (s : String)
deriving DecidableEq, Repr

/-- Embedded `SimpleOptimizer.suggest_edit` (opt/bo.py): each numeric value is
multiplied by `0.9 + 0.2 * random.random()`; other values are carried over
unchanged.  `rnd i` is the value returned by the i-th call of
`random.random()` within this invocation. -/
def suggest_edit (rnd : ℕ → ℚ) : List (String × PVal) → ℕ → List (String × PVal)
  | [], _ => []
  | (k, .num v) :: rest, i =>
    (k, .num (v * (9/10 + (1/5) * rnd i))) :: suggest_edit rnd rest (i + 1)
  | (k, .nonnum s) :: rest, i => (k, .nonnum s) :: suggest_edit rnd rest i

/-- Embedded `SimpleOptimizer.suggest_edit` specialized to a `UnitOp.params` dict:
pydantic has coerced every value of such a dict to a float, so the
`isinstance` test succeeds on every entry. -/
def suggest_edit_num (rnd : ℕ → ℚ) : List (String × ℚ) → ℕ → List (String × ℚ)
  | [], _ => []
  | (k, v) :: rest, i =>
    (k, v * (9/10 + (1/5) * rnd i)) :: suggest_edit_num rnd rest (i + 1)

/-- Embedded `Orchestrator.suggest` (planner.py): assign the perturbed dict to the
first unit's `params` and return the (shallow-modified) flowsheet. -/
def suggest (fs : Flowsheet) (rnd : ℕ → ℚ) : Flowsheet :=
  match fs.units with
  | [] => fs
  | u0 :: rest =>
    { fs with units := { u0 with params := suggest_edit_num rnd u0.params 0 } :: rest }

/-- Embedded `simulation_params.pop("constraint", "TP")` (orchestrator_agent.py):
return the stored value (or the default) together with the dict as the
caller sees it afterwards — the key removed when it was present. -/
def dictPop (m : List (String × PVal)) (k : String) (d : PVal) :
    PVal × List (String × PVal) :=
  match m.find? (fun kv => kv.1 == k) with
  | some kv => (kv.2, m.filter (fun kv => kv.1 != k))
  | none => (d, m)

/-- Return value of `OrchestratorAgent.design_process`
(orchestrator_agent.py): last time-series row, levelized cost, cost
breakdown. -/
structure DesignOut where
  simulation_results : List (String × ℚ)
  lcop : ℚ
  cost_breakdown : List (String × ℚ)
deriving DecidableEq, Repr

/-- The collaborators `OrchestratorAgent.design_process` sequences.
`ReactorDesignAgent.define_state` and `KineticsAgent` live in repository
modules (`sep_agents/sim/reactor_design_agent.py`,
`sep_agents/sim/kinetics_agent.py`) that are not part of the embedded core,
and `EconomicsAgent` delegates to the external GeoH2 package; per spec §6
each is an opaque, potentially-failing synchronous call, embedded as an
`Except`-valued function.  `run_simulation` receives the initial-conditions
dict (the `KineticsAgent` constructor argument), the popped constraint, the
reactor params, and the remaining simulation params, and returns the
time-series rows. -/
structure Collaborators (σ : Type) where
  define_state : List (String × PVal) → Except String σ
  run_simulation : List (String × PVal) → PVal → List (String × PVal) →
    List (String × PVal) → Except String (List (List (String × ℚ)))
  calculate_lcop : Option (List (String × PVal)) → String → Except String ℚ
  get_cost_breakdown : Option (List (String × PVal)) → String →
    Except String (List (String × ℚ))

/-- Embedded `OrchestratorAgent.design_process` (orchestrator_agent.py):
Define → Simulate → Evaluate.  The second component is the caller's
`simulation_params` dict as left after the call: step 2 pops `"constraint"`
out of it in place, so every exit past step 1 returns the popped dict.
The last time-series row is extracted by `sim_results.tail(1)
.to_dict(...)[0]`, which raises on an empty series. -/
def design_process {σ : Type} (c : Collaborators σ)
    (initial_conditions : List (String × PVal))
    (simulation_params : List (String × PVal))
    (economic_params : Option (List (String × PVal)))
    (reactor_params : Option (List (String × PVal)))
    (primary_product : String) :
    Except String DesignOut × List (String × PVal) :=
  match c.define_state initial_conditions with
  | .error e => (.error e, simulation_params)
  | .ok _ =>
    let popped := dictPop simulation_params "constraint" (.nonnum "TP")
    let sp := popped.2
    match c.run_simulation initial_conditions popped.1 (reactor_params.getD []) sp with
    | .error e => (.error e, sp)
    | .ok rows =>
      match c.calculate_lcop economic_params primary_product with
      | .error e => (.error e, sp)
      | .ok lcop =>
        match rows.getLast? with
        | none => (.error "single positional indexer is out-of-bounds", sp)
        | some row =>
          match c.get_cost_breakdown economic_params primary_product with
          | .error e => (.error e, sp)
          | .ok bd => (.ok ⟨row, lcop, bd⟩, sp)

/-- An entry of `optimization_variables` (orchestrator_agent.py,
`optimize_process`): the dotted path is accessed only at indices 0 and 1,
embedded as a pair (root, key). -/
structure OptVar where
  name : String
  path : String × String
  bounds : ℚ × ℚ
  initial_value : Option ℚ := none
deriving DecidableEq, Repr

/-- The per-trial parameter construction inside `objective_function`
(orchestrator_agent.py): copy both base dicts, then overwrite each
variable's path-addressed entry with the matching component of the trial
vector. -/
def trial_dicts (optimization_variables : List OptVar)
    (base_initial_conditions base_simulation_params : List (String × PVal))
    (x : List ℚ) : List (String × PVal) × List (String × PVal) :=
  (optimization_variables.zip x).foldl
    (fun st vx =>
      if vx.1.path.1 = "initial_conditions" then
        (updKey st.1 vx.1.path.2 (.num vx.2), st.2)
      else if vx.1.path.1 = "simulation_params" then
        (st.1, updKey st.2 vx.1.path.2 (.num vx.2))
      else st)
    (base_initial_conditions, base_simulation_params)

/-- Embedded `objective_function` (orchestrator_agent.py, inside `optimize_process`):
evaluate `design_process` at the trial point; any failure is caught and
mapped to the fixed penalty `1e9` instead of being propagated. -/
def objective_function {σ : Type} (c : Collaborators σ)
    (base_initial_conditions base_simulation_params : List (String × PVal))
    (optimization_variables : List OptVar)
    (economic_params reactor_params : Option (List (String × PVal)))
    (primary_product : String) (x : List ℚ) : ℚ :=
  let cur := trial_dicts optimization_variables
    base_initial_conditions base_simulation_params x
  match (design_process c cur.1 cur.2 economic_params reactor_params primary_product).1 with
  | .ok r => r.lcop
  | .error _ => 1000000000

/-- Modelled from the spec: `scipy.optimize.minimize`, the external numeric
minimizer wrapped by `OptimizationAgent.optimize` (its internals are
explicitly out of scope, spec §1/§4.6).  Per spec §4.6/§5 the search is a
finite, strictly sequential series of blocking objective evaluations: the
initial guess, then the solver-chosen trial points of each iteration, the
number of iterations capped by the `maxiter` option; it reports the least
objective value seen as `fun` and the best point as `x`. -/
def minimizeModel (f : List ℚ → ℚ) (x0 : List ℚ)
    (iterations : List (List (List ℚ))) (maxiter : ℕ) :
    (List ℚ × ℚ) × (ℕ × ℕ) :=
  let pts := x0 :: (iterations.take maxiter).flatten
  let best := pts.foldl (fun b p => if f p < f b then p else b) x0
  let fmin := pts.foldl (fun a p => min a (f p)) (f x0)
  ((best, fmin), (min iterations.length maxiter, pts.length))

/-- Return dict of `OptimizationAgent.optimize` (optimization_agent.py). -/
structure OptimizeOut where
  optimized_params : List ℚ
  min_value : ℚ
  n_iterations : ℕ
  n_evaluations : ℕ
deriving DecidableEq, Repr

/-- Embedded `OptimizationAgent.optimize` (optimization_agent.py): hand the
objective, initial guess, bounds and options to the minimizer and repackage
the result fields (`result.fun` as `min_value`, `result.nfev` as
`n_evaluations`).  `iterations` stands for the trial points the external
solver chooses; `bounds` is passed through to it. -/
def OptimizationAgent.optimize (objective : List ℚ → ℚ)
    (initial_guess : List ℚ) (_bounds : List (ℚ × ℚ))
    (iterations : List (List (List ℚ))) (maxiter : ℕ) : OptimizeOut :=
  let r := minimizeModel objective initial_guess iterations maxiter
  { optimized_params := r.1.1, min_value := r.1.2,
    n_iterations := r.2.1, n_evaluations := r.2.2 }

/-- Feed stream of the one-mill end-to-end flowsheet: PSD bins `[100, 50]`
microns, mass fractions `[0.5, 0.5]`. -/
def millFeedStream : Stream :=
  { name := "feed", phase := .solid,
    psd := some { bins_um := [100, 50], mass_frac := [1/2, 1/2] } }

/-- Product stream of the one-mill end-to-end flowsheet. -/
def millProductStream : Stream := { name := "product", phase := .solid }

/-- The one-mill end-to-end flowsheet: a single `mill` unit with
`fineness_factor = 0.5` (and `E_specific_kWhpt` left to its default),
one feed stream, one product stream. -/
def millFS : Flowsheet :=
  { name := "mill_fs",
    units := [{ id := "mill1", type := "mill",
                params := [("fineness_factor", 1/2)],
                inputs := ["feed"], outputs := ["product"] }],
    streams := [millFeedStream, millProductStream] }

/-- C1: on the one-mill flowsheet (fineness_factor 0.5, default specific
energy), `run_once` returns status ok with the aggregated KPI mapping
`{"mill1.E_specific_kWhpt": 8.0}` and `OPEX_score = 8.0`; the OPEX score is
the sum of all aggregated KPI values; and the mill's output stream carries
PSD bins `[50, 25]` with mass fractions still `[0.5, 0.5]`. -/
theorem mill_flowsheet_end_to_end :
    (run_once millFS).1 = .ok [("mill1.E_specific_kWhpt", 8)] 8 ∧
    estimate_opex_kwh_reagents [("mill1.E_specific_kWhpt", 8)] = 8 ∧
    (Mill.simulate [("fineness_factor", 1/2)] millFeedStream).1.outputs =
      [("product", { millFeedStream with
        psd := some { bins_um := [50, 25], mass_frac := [1/2, 1/2] } })] := by
  refine ⟨?_, ?_, ?_⟩
  · norm_num [run_once, millFS, millFeedStream, millProductStream, Critic.check,
      unitStep, UNIT_REGISTRY, findFeed, Mill.simulate, pget, updKey,
      setFirstStream, estimate_opex_kwh_reagents, List.find?]
    decide
  · norm_num [estimate_opex_kwh_reagents]
  · norm_num [Mill.simulate, millFeedStream, pget, List.find?]

/-- C7: constructing a `PSD` succeeds exactly when the mass-fraction sum
lies in the closed interval `[0.99, 1.01]`, and raises a validation error
exactly when it lies outside, regardless of the number of bins. -/
theorem psd_mass_frac_tolerance (bins mf : List ℚ) :
    (PSD.make bins mf = .ok { bins_um := bins, mass_frac := mf } ↔
      (99/100 : ℚ) ≤ mf.sum ∧ mf.sum ≤ 101/100) ∧
    ((∃ e, PSD.make bins mf = .error e) ↔
      ¬((99/100 : ℚ) ≤ mf.sum ∧ mf.sum ≤ 101/100)) := by
  have hb : psdSumOk mf = true ↔ ((99/100 : ℚ) ≤ mf.sum ∧ mf.sum ≤ 101/100) := by
    simp [psdSumOk]
  cases hpb : psdSumOk mf with
  | true => simp [PSD.make, hpb, hb.mp hpb]
  | false =>
    have : ¬((99/100 : ℚ) ≤ mf.sum ∧ mf.sum ≤ 101/100) := fun h => by
      rw [hb.mpr h] at hpb
      exact Bool.noConfusion hpb
    simp [PSD.make, hpb, this]

/-- Witness for C7 at a concrete two-bin PSD whose fractions sum to 1. -/
theorem psd_mass_frac_tolerance_witness :
    PSD.make [100, 50] [1/2, 1/2] = .ok { bins_um := [100, 50], mass_frac := [1/2, 1/2] } :=
  (psd_mass_frac_tolerance [100, 50] [1/2, 1/2]).1.mpr (by norm_num)

/-- The intended validator logic is exact-set matching against the
registered table: it succeeds exactly when the type tag is registered,
every required name is present among the parameter keys, and every present
key lies in required ∪ optional; in every other case it returns a
validation error.  This characterizes the body that the program, run under
pydantic v2, never reaches (see `check_params_pydantic_v2_bug`). -/
theorem check_params_exact_set (t : String) (v : List (String × ℚ)) :
    check_params t v = .ok () ↔
      ∃ s, UNIT_PARAM_SPEC t = some s ∧
        (∀ r ∈ s.1, ∃ kv ∈ v, kv.1 = r) ∧
        (∀ kv ∈ v, kv.1 ∈ s.1 ∨ kv.1 ∈ s.2) := by
  unfold check_params
  cases hspec : UNIT_PARAM_SPEC t with
  | none => simp [hspec]
  | some s =>
    dsimp only
    cases h1 : s.1.find? (fun p => !(v.any (fun kv => kv.1 == p))) with
    | some p =>
      dsimp only
      have hp : p ∈ s.1 := List.mem_of_find?_eq_some h1
      have hpred := List.find?_some h1
      simp at hpred
      simp only [reduceCtorEq, false_iff, not_exists]
      rintro s' ⟨hs', hreq, -⟩
      obtain rfl : s = s' := Option.some.inj hs'
      obtain ⟨⟨a, b⟩, hkv, hkveq⟩ := hreq p hp
      exact hpred a b hkv hkveq
    | none =>
      dsimp only
      have hreq : ∀ r ∈ s.1, ∃ kv ∈ v, kv.1 = r := by
        intro r hr
        have hx := List.find?_eq_none.mp h1 r hr
        simp at hx
        obtain ⟨b, hb⟩ := hx
        exact ⟨(r, b), hb, rfl⟩
      cases h2 : v.find? (fun kv => !(s.1.contains kv.1) && !(s.2.contains kv.1)) with
      | some kv =>
        dsimp only
        have hkv : kv ∈ v := List.mem_of_find?_eq_some h2
        have hpred := List.find?_some h2
        simp at hpred
        simp only [reduceCtorEq, false_iff, not_exists]
        rintro s' ⟨hs', -, hknown⟩
        obtain rfl : s = s' := Option.some.inj hs'
        rcases hknown kv hkv with h | h
        · exact hpred.1 h
        · exact hpred.2 h
      | none =>
        dsimp only
        have hknown : ∀ kv ∈ v, kv.1 ∈ s.1 ∨ kv.1 ∈ s.2 := by
          rintro ⟨a, b⟩ hkv
          have hx := List.find?_eq_none.mp h2 (a, b) hkv
          simp [not_and_or] at hx
          exact or_iff_not_imp_left.mpr hx
        simp only [true_iff]
        exact ⟨s, rfl, hreq, hknown⟩

/-- The intended logic at the `mill` parameter sets the spec names:
exactly `{fineness_factor}` would succeed, the full required+optional set
would succeed, the empty parameter set would be rejected, and an
unregistered key `foo` would be rejected. -/
theorem check_params_exact_set_witness :
    check_params "mill" [("fineness_factor", 1/2)] = .ok () ∧
    check_params "mill"
      [("fineness_factor", 1/2), ("E_specific_kWhpt", 8), ("media_type", 1)] = .ok () ∧
    check_params "mill" [] ≠ .ok () ∧
    check_params "mill" [("fineness_factor", 1/2), ("foo", 1)] ≠ .ok () := by
  refine ⟨?_, ?_, ?_, ?_⟩
  · exact (check_params_exact_set "mill" _).mpr
      ⟨(["fineness_factor"], ["E_specific_kWhpt", "media_type"]), by decide, by decide,
        by decide⟩
  · exact (check_params_exact_set "mill" _).mpr
      ⟨(["fineness_factor"], ["E_specific_kWhpt", "media_type"]), by decide, by decide,
        by decide⟩
  · intro h
    obtain ⟨s, hs, hreq, -⟩ := (check_params_exact_set "mill" []).mp h
    obtain rfl : s = (["fineness_factor"], ["E_specific_kWhpt", "media_type"]) := by
      have : UNIT_PARAM_SPEC "mill" =
          some (["fineness_factor"], ["E_specific_kWhpt", "media_type"]) := by decide
      rw [this] at hs
      exact (Option.some.inj hs).symm
    obtain ⟨kv, hkv, -⟩ := hreq "fineness_factor" (by decide)
    exact absurd hkv (List.not_mem_nil kv)
  · intro h
    obtain ⟨s, hs, -, hknown⟩ :=
      (check_params_exact_set "mill" [("fineness_factor", 1/2), ("foo", 1)]).mp h
    obtain rfl : s = (["fineness_factor"], ["E_specific_kWhpt", "media_type"]) := by
      have : UNIT_PARAM_SPEC "mill" =
          some (["fineness_factor"], ["E_specific_kWhpt", "media_type"]) := by decide
      rw [this] at hs
      exact (Option.some.inj hs).symm
    have := hknown ("foo", 1) (by simp)
    simp at this

/-- Embedded `UnitOp.check_params` as it actually executes under pydantic
v2, the only pydantic generation providing the `field_validator` decorator
that schemas.py imports: the decorator passes a `ValidationInfo` object as
the third positional argument `values`, so the body raises
`AttributeError` at `values.get("type")` before examining any parameter;
pydantic converts only `ValueError`/`AssertionError` into validation
errors, so the `AttributeError` propagates to the constructor caller
(verified against pydantic 2.10.6). -/
def check_params_v2 (_unit_type : String) (_v : List (String × ℚ)) : Except String Unit :=
  .error "AttributeError: ValidationInfo object has no attribute get"

/-- Embedded pydantic-v2 construction of a `UnitOp`: when `params` is
supplied the field validator runs (and raises, see `check_params_v2`);
when `params` is omitted the `default_factory` default is not validated
(`validate_default` is off by default), so no check runs at all and even
an unregistered type tag constructs successfully. -/
def UnitOp.construct_v2 (id type : String) (params : Option (List (String × ℚ)))
    (inputs outputs : List String) : Except String UnitOp :=
  match params with
  | none => .ok { id := id, type := type, params := [], inputs := inputs, outputs := outputs }
  | some v =>
    match check_params_v2 type v with
    | .error e => .error e
    | .ok _ => .ok { id := id, type := type, params := v, inputs := inputs, outputs := outputs }

/-- C3: the claim fails on the code as executed.  Constructing a `mill`
unit with exactly `{fineness_factor}` — which the claim says succeeds —
raises an `AttributeError` from `values.get` before any validation, and so
does the full required+optional set; while omitting `params` skips the
validator entirely, so a unit with an unregistered type tag constructs
successfully where the claim says construction fails.  The intended
exact-set logic (characterized by `check_params_exact_set`) is never
reached. -/
theorem check_params_pydantic_v2_bug :
    UnitOp.construct_v2 "m1" "mill" (some [("fineness_factor", 1/2)]) ["feed"] ["product"] =
      .error "AttributeError: ValidationInfo object has no attribute get" ∧
    UnitOp.construct_v2 "m1" "mill"
      (some [("fineness_factor", 1/2), ("E_specific_kWhpt", 8), ("media_type", 1)])
      ["feed"] ["product"] =
      .error "AttributeError: ValidationInfo object has no attribute get" ∧
    (∃ u, UnitOp.construct_v2 "u2" "not_registered" none ["a"] ["b"] = .ok u) :=
  ⟨rfl, rfl, ⟨_, rfl⟩⟩

/-- C5: the Critic reports `(False, message)` exactly when some unit has an
empty declared input list or empty declared output list, the message names
the offending unit id; and `run_once` on a flowsheet failing the Critic
returns status invalid carrying the Critic's message (hence no KPI mapping
and no dispatch). -/
theorem critic_gate (fs : Flowsheet) :
    ((Critic.check fs).1 = false ↔ ∃ u ∈ fs.units, u.inputs = [] ∨ u.outputs = []) ∧
    ((Critic.check fs).1 = false →
      ∃ u ∈ fs.units, (u.inputs = [] ∨ u.outputs = []) ∧
        (Critic.check fs).2 = "Unit " ++ u.id ++ " missing inputs/outputs") ∧
    ((Critic.check fs).1 = false → (run_once fs).1 = .invalid (Critic.check fs).2) := by
  have hrun : ∀ msg, Critic.check fs = (false, msg) → (run_once fs).1 = .invalid msg := by
    intro msg hc
    simp [run_once, hc]
  unfold Critic.check at *
  cases h : fs.units.find? (fun u => u.inputs.isEmpty || u.outputs.isEmpty) with
  | some u =>
    have hu : u ∈ fs.units := List.mem_of_find?_eq_some h
    have hpred := List.find?_some h
    simp at hpred
    refine ⟨⟨fun _ => ⟨u, hu, hpred⟩, fun _ => rfl⟩, ?_, ?_⟩
    · intro _
      exact ⟨u, hu, hpred, rfl⟩
    · intro _
      exact hrun _ (by rw [h])
  | none =>
    have hall := List.find?_eq_none.mp h
    simp at hall
    refine ⟨⟨fun hfalse => absurd hfalse (by simp), ?_⟩, by simp, by simp⟩
    rintro ⟨u, hu, hor⟩
    obtain ⟨h1, h2⟩ := hall u hu
    rcases hor with h3 | h3
    · exact absurd h3 h1
    · exact absurd h3 h2

/-- A unit with no declared inputs, used to exercise the Critic gate. -/
def badUnit : UnitOp := { id := "u1", type := "mill", inputs := [], outputs := ["out"] }

/-- A flowsheet that fails the Critic (its only unit has no inputs). -/
def badFS : Flowsheet := { name := "bad", units := [badUnit], streams := [] }

/-- Witness for C5: on `badFS` the Critic reports failure and `run_once`
short-circuits to status invalid with the Critic's message. -/
theorem critic_gate_witness :
    (Critic.check badFS).1 = false ∧
    (run_once badFS).1 = .invalid (Critic.check badFS).2 := by
  have h := critic_gate badFS
  have hf : (Critic.check badFS).1 = false :=
    h.1.mpr ⟨badUnit, by simp [badFS], Or.inl rfl⟩
  exact ⟨hf, h.2.2 hf⟩

/-- Helper: a Bool-level non-containment test is `true` exactly when the
element is not a member. -/
theorem bang_contains_eq_true_iff {l : List String} {a : String} :
    (!(l.contains a)) = true ↔ a ∉ l := by
  cases hc : l.contains a with
  | true =>
    simp only [Bool.not_true, Bool.false_eq_true, false_iff, not_not]
    exact List.elem_iff.mp hc
  | false =>
    simp only [Bool.not_false, true_iff]
    intro hmem
    have ht : l.contains a = true := List.elem_eq_true_of_mem hmem
    rw [ht] at hc
    exact Bool.noConfusion hc

/-- C6: graph validation succeeds exactly when every stream name referenced
by a unit is declared, some declared stream is produced by no unit (a
feed), and some declared stream is consumed by no unit (a sink); it fails
in every other case. -/
theorem validate_graph_feeds_sinks (fs : Flowsheet) :
    validate_graph fs = .ok () ↔
      (∀ u ∈ fs.units, ∀ s ∈ u.inputs ++ u.outputs,
          s ∈ fs.streams.map (fun st => st.name)) ∧
      (∃ s ∈ fs.streams.map (fun st => st.name),
          s ∉ (fs.units.map (fun u => u.outputs)).flatten) ∧
      (∃ s ∈ fs.streams.map (fun st => st.name),
          s ∉ (fs.units.map (fun u => u.inputs)).flatten) := by
  simp only [validate_graph]
  cases hfind : fs.units.find? (fun u =>
      (u.inputs ++ u.outputs).any (fun s => !((fs.streams.map (fun s => s.name)).contains s))) with
  | some u =>
    dsimp only
    have hu : u ∈ fs.units := List.mem_of_find?_eq_some hfind
    have hpred := List.find?_some hfind
    rw [List.any_eq_true] at hpred
    obtain ⟨s, hs, hc⟩ := hpred
    have hc' : s ∉ fs.streams.map (fun st => st.name) := bang_contains_eq_true_iff.mp hc
    simp only [reduceCtorEq, false_iff]
    rintro ⟨hrefs, -, -⟩
    exact hc' (hrefs u hu s hs)
  | none =>
    dsimp only
    have hrefs : ∀ u ∈ fs.units, ∀ s ∈ u.inputs ++ u.outputs,
        s ∈ fs.streams.map (fun st => st.name) := by
      intro u hu s hs
      have hx := List.find?_eq_none.mp hfind u hu
      rw [List.any_eq_true] at hx
      push_neg at hx
      have := hx s hs
      by_cases hmem : s ∈ fs.streams.map (fun st => st.name)
      · exact hmem
      · exact absurd (bang_contains_eq_true_iff.mpr hmem) this
    cases hfe : ((fs.streams.map (fun s => s.name)).filter
        (fun s => !(((fs.units.map (fun u => u.outputs)).flatten).contains s))).isEmpty with
    | true =>
      simp only [reduceIte]
      simp only [reduceCtorEq, false_iff]
      rw [List.isEmpty_iff, List.filter_eq_nil_iff] at hfe
      rintro ⟨-, ⟨s, hs, hnot⟩, -⟩
      exact (hfe s hs) (bang_contains_eq_true_iff.mpr hnot)
    | false =>
      simp only [Bool.false_eq_true, reduceIte]
      cases hpe : ((fs.streams.map (fun s => s.name)).filter
          (fun s => !(((fs.units.map (fun u => u.inputs)).flatten).contains s))).isEmpty with
      | true =>
        simp only [reduceIte]
        simp only [reduceCtorEq, false_iff]
        rw [List.isEmpty_iff, List.filter_eq_nil_iff] at hpe
        rintro ⟨-, -, ⟨s, hs, hnot⟩⟩
        exact (hpe s hs) (bang_contains_eq_true_iff.mpr hnot)
      | false =>
        simp only [Bool.false_eq_true, reduceIte, true_iff]
        refine ⟨hrefs, ?_, ?_⟩
        · obtain ⟨s, hs⟩ := List.isEmpty_eq_false_iff_exists_mem.mp hfe
          rw [List.mem_filter] at hs
          exact ⟨s, hs.1, bang_contains_eq_true_iff.mp hs.2⟩
        · obtain ⟨s, hs⟩ := List.isEmpty_eq_false_iff_exists_mem.mp hpe
          rw [List.mem_filter] at hs
          exact ⟨s, hs.1, bang_contains_eq_true_iff.mp hs.2⟩

/-- Witness for C6: a flowsheet with one mill, a declared feed stream
(produced by no unit) and a declared product stream (consumed by no unit)
passes graph validation. -/
theorem validate_graph_feeds_sinks_witness :
    validate_graph millFS = .ok () :=
  (validate_graph_feeds_sinks millFS).mpr (by decide)

/-- Every registered behavior hands the feed stream back unchanged: each
`simulate` builds its outputs from `feed.copy(...)` and never writes into
the feed object. -/
theorem registry_preserves_feed {t : String}
    {sim : List (String × ℚ) → Stream → UnitResult × Stream}
    (h : UNIT_REGISTRY t = some sim) (p : List (String × ℚ)) (f : Stream) :
    (sim p f).2 = f := by
  unfold UNIT_REGISTRY at h
  split_ifs at h
  all_goals obtain rfl := Option.some.inj h
  all_goals try rfl
  all_goals cases hps : f.psd <;> simp [Mill.simulate, hps]

/-- Replacing the first stream of a given name by the stream that a name
lookup already found leaves the list unchanged. -/
theorem setFirstStream_self {streams : List Stream} {fn : String} {a : Stream}
    (h : streams.find? (fun s => s.name == fn) = some a) :
    setFirstStream streams fn a = streams := by
  induction streams with
  | nil => exact absurd h (by simp)
  | cons s rest ih =>
    cases hb : (s.name == fn) with
    | true =>
      have hsa : s = a := by
        rw [List.find?_cons, hb] at h
        exact Option.some.inj h
      subst hsa
      simp [setFirstStream, hb]
    | false =>
      rw [List.find?_cons, hb] at h
      simp only [setFirstStream, hb, Bool.false_eq_true, if_false]
      rw [ih h]

/-- One step of the `run_once` loop never changes the flowsheet's stream
list. -/
theorem unitStep_fst (st : List Stream × List (String × ℚ)) (u : UnitOp) :
    (unitStep st u).1 = st.1 := by
  unfold unitStep
  cases hreg : UNIT_REGISTRY u.type with
  | none => rfl
  | some sim =>
    dsimp only
    cases hf : findFeed st.1 u with
    | none => rfl
    | some feed =>
      dsimp only
      rw [registry_preserves_feed hreg]
      unfold findFeed at hf
      cases hh : u.inputs.head? with
      | none => rw [hh] at hf; exact Option.noConfusion hf
      | some fn =>
        rw [hh] at hf
        have hname : feed.name = fn := by
          have := List.find?_some hf
          simpa using this
        rw [hname]
        exact setFirstStream_self hf

/-- The full `run_once` loop leaves the stream list unchanged. -/
theorem foldl_unitStep_fst (units : List UnitOp) (streams : List Stream)
    (acc : List (String × ℚ)) :
    (units.foldl unitStep (streams, acc)).1 = streams := by
  induction units generalizing acc with
  | nil => rfl
  | cons u rest ih =>
    have h : unitStep (streams, acc) u = (streams, (unitStep (streams, acc) u).2) := by
      conv_lhs => rw [← Prod.mk.eta (p := unitStep (streams, acc) u)]
      rw [unitStep_fst]
    rw [List.foldl_cons, h, ih]

/-- C8: `run_once` performs no hidden mutation of the flowsheet — the
post-call flowsheet state equals the input — so a second call on the same
unmodified object returns the identical result (same kpis and
OPEX_score). -/
theorem run_once_no_mutation_idempotent (fs : Flowsheet) :
    (run_once fs).2 = fs ∧
    (run_once ((run_once fs).2)).1 = (run_once fs).1 := by
  have h2 : (run_once fs).2 = fs := by
    unfold run_once
    cases hc : Critic.check fs with
    | mk ok msg =>
      cases ok
      · rfl
      · dsimp only
        rw [foldl_unitStep_fst]
  exact ⟨h2, by rw [h2]⟩

/-- A unit whose type tag is unregistered, or whose feed lookup fails, is a
no-op of the `run_once` loop. -/
theorem unitStep_skip {st : List Stream × List (String × ℚ)} {u : UnitOp}
    (h : UNIT_REGISTRY u.type = none ∨ findFeed st.1 u = none) :
    unitStep st u = st := by
  unfold unitStep
  rcases h with h | h
  · rw [h]
  · cases hreg : UNIT_REGISTRY u.type with
    | none => rfl
    | some sim =>
      dsimp only
      rw [h]

/-- The Critic passes exactly when no unit fails its emptiness test. -/
theorem critic_true_iff (fs : Flowsheet) :
    (Critic.check fs).1 = true ↔
      ∀ u ∈ fs.units, ¬(u.inputs.isEmpty || u.outputs.isEmpty) = true := by
  unfold Critic.check
  cases h : fs.units.find? (fun u => u.inputs.isEmpty || u.outputs.isEmpty) with
  | some u =>
    dsimp only
    constructor
    · intro hfalse
      exact absurd hfalse (by simp)
    · intro hall
      exact absurd (List.find?_some h) (hall u (List.mem_of_find?_eq_some h))
  | none =>
    dsimp only
    exact ⟨fun _ => List.find?_eq_none.mp h, fun _ => rfl⟩

/-- A key of an updated dict is a key of the old dict or the updated key. -/
theorem updKey_keys {α : Type} {m : List (String × α)} {key k : String} {v : α}
    (h : k ∈ (updKey m key v).map Prod.fst) :
    k ∈ m.map Prod.fst ∨ k = key := by
  unfold updKey at h
  by_cases hany : m.any (fun kv => kv.1 == key) = true
  · rw [if_pos hany, List.map_map] at h
    obtain ⟨kv, hkv, hk⟩ := List.mem_map.mp h
    by_cases hb : (kv.1 == key) = true
    · right
      simp only [Function.comp_apply, if_pos hb] at hk
      exact hk.symm
    · left
      simp only [Function.comp_apply, if_neg hb] at hk
      exact List.mem_map.mpr ⟨kv, hkv, hk⟩
  · rw [if_neg hany, List.map_append] at h
    rcases List.mem_append.mp h with h | h
    · exact Or.inl h
    · right
      have : k ∈ [key] := by simpa using h
      simpa using this

/-- A key produced by merging one unit's KPIs is an old key or a key
namespaced by that unit's id. -/
theorem kpifold_keys {kpis : List (String × ℚ)} {uid : String}
    {acc : List (String × ℚ)} {k : String}
    (h : k ∈ (kpis.foldl (fun m kv => updKey m (uid ++ "." ++ kv.1) kv.2) acc).map Prod.fst) :
    k ∈ acc.map Prod.fst ∨ ∃ kn, k = uid ++ "." ++ kn := by
  induction kpis generalizing acc with
  | nil => exact Or.inl h
  | cons kv rest ih =>
    rw [List.foldl_cons] at h
    rcases ih h with h' | h'
    · rcases updKey_keys h' with h'' | h''
      · exact Or.inl h''
      · exact Or.inr ⟨kv.1, h''⟩
    · exact Or.inr h'

/-- Every key aggregated by the `run_once` loop is namespaced by the id of
one of the dispatched units. -/
theorem foldl_unitStep_keys {units : List UnitOp} {streams : List Stream}
    {acc : List (String × ℚ)} {k : String}
    (h : k ∈ ((units.foldl unitStep (streams, acc)).2).map Prod.fst) :
    k ∈ acc.map Prod.fst ∨ ∃ w ∈ units, ∃ kn, k = w.id ++ "." ++ kn := by
  induction units generalizing acc with
  | nil => exact Or.inl h
  | cons u rest ih =>
    rw [List.foldl_cons] at h
    have hst : unitStep (streams, acc) u = (streams, (unitStep (streams, acc) u).2) := by
      conv_lhs => rw [← Prod.mk.eta (p := unitStep (streams, acc) u)]
      rw [unitStep_fst]
    rw [hst] at h
    rcases ih h with h' | ⟨w, hw, kn, hkn⟩
    · unfold unitStep at h'
      cases hreg : UNIT_REGISTRY u.type with
      | none =>
        rw [hreg] at h'
        exact Or.inl h'
      | some sim =>
        rw [hreg] at h'
        dsimp only at h'
        cases hf : findFeed streams u with
        | none =>
          rw [hf] at h'
          exact Or.inl h'
        | some feed =>
          rw [hf] at h'
          dsimp only at h'
          rcases kpifold_keys h' with h'' | ⟨kn, hkn⟩
          · exact Or.inl h''
          · exact Or.inr ⟨u, List.mem_cons_self u rest, kn, hkn⟩
    · exact Or.inr ⟨w, List.mem_cons_of_mem u hw, kn, hkn⟩

/-- C4: on a flowsheet that passes the Critic, a unit with an unregistered
type tag, or whose first declared input stream matches no declared stream,
is skipped silently — the run result equals the run with that unit removed,
the overall status is still ok, and every aggregated KPI key is namespaced
by the id of one of the remaining units. -/
theorem run_once_silent_skip
    (fs : Flowsheet) (pre post : List UnitOp) (u : UnitOp)
    (hunits : fs.units = pre ++ u :: post)
    (hskip : UNIT_REGISTRY u.type = none ∨ findFeed fs.streams u = none)
    (hcrit : (Critic.check fs).1 = true) :
    (run_once fs).1 = (run_once { fs with units := pre ++ post }).1 ∧
    (∃ kp, (run_once fs).1 = .ok kp (estimate_opex_kwh_reagents kp) ∧
      ∀ k ∈ kp.map Prod.fst, ∃ w ∈ pre ++ post, ∃ kn, k = w.id ++ "." ++ kn) := by
  have hcrit' : (Critic.check { fs with units := pre ++ post }).1 = true := by
    rw [critic_true_iff] at hcrit ⊢
    intro w hw
    apply hcrit
    rw [hunits]
    rcases List.mem_append.mp hw with h | h
    · exact List.mem_append.mpr (Or.inl h)
    · exact List.mem_append.mpr (Or.inr (List.mem_cons_of_mem u h))
  have hc1 : Critic.check fs = (true, (Critic.check fs).2) := by
    have he := (Prod.mk.eta (p := Critic.check fs)).symm
    rw [hcrit] at he
    exact he
  have hc2 : Critic.check { fs with units := pre ++ post } =
      (true, (Critic.check { fs with units := pre ++ post }).2) := by
    have he := (Prod.mk.eta (p := Critic.check { fs with units := pre ++ post })).symm
    rw [hcrit'] at he
    exact he
  have hpre1 : (List.foldl unitStep (fs.streams, ([] : List (String × ℚ))) pre).1 =
      fs.streams := foldl_unitStep_fst pre fs.streams []
  have hsk : unitStep (List.foldl unitStep (fs.streams, []) pre) u =
      List.foldl unitStep (fs.streams, []) pre := by
    apply unitStep_skip
    rcases hskip with h | h
    · exact Or.inl h
    · right
      rw [hpre1]
      exact h
  have hkp : (fs.units.foldl unitStep (fs.streams, [])).2 =
      ((pre ++ post).foldl unitStep (fs.streams, [])).2 := by
    rw [hunits, List.foldl_append, List.foldl_cons, hsk, ← List.foldl_append]
  have hr1 : (run_once fs).1 =
      .ok ((fs.units.foldl unitStep (fs.streams, [])).2)
        (estimate_opex_kwh_reagents ((fs.units.foldl unitStep (fs.streams, [])).2)) := by
    unfold run_once
    rw [hc1]
  have hr2 : (run_once { fs with units := pre ++ post }).1 =
      .ok (((pre ++ post).foldl unitStep (fs.streams, [])).2)
        (estimate_opex_kwh_reagents (((pre ++ post).foldl unitStep (fs.streams, [])).2)) := by
    unfold run_once
    rw [hc2]
  refine ⟨?_, ?_⟩
  · rw [hr1, hr2, hkp]
  · refine ⟨(fs.units.foldl unitStep (fs.streams, [])).2, hr1, ?_⟩
    intro k hk
    rw [hkp] at hk
    rcases foldl_unitStep_keys hk with h | h
    · exact absurd h (by simp)
    · exact h

/-- A unit whose type tag is not in the execution registry. -/
def skipUnit : UnitOp :=
  { id := "sk", type := "magic", params := [], inputs := ["feed"], outputs := ["x"] }

/-- The one-mill flowsheet with an unregistered unit prepended. -/
def skipFS : Flowsheet :=
  { name := "skip_fs", units := skipUnit :: millFS.units, streams := millFS.streams }

/-- Witness for C4: on `skipFS` the unregistered unit is skipped, the run
equals the run without it, the status is ok, and all KPI keys come from the
remaining mill. -/
theorem run_once_silent_skip_witness :
    (run_once skipFS).1 = (run_once { skipFS with units := [] ++ millFS.units }).1 ∧
    (∃ kp, (run_once skipFS).1 = .ok kp (estimate_opex_kwh_reagents kp) ∧
      ∀ k ∈ kp.map Prod.fst, ∃ w ∈ [] ++ millFS.units, ∃ kn, k = w.id ++ "." ++ kn) :=
  run_once_silent_skip skipFS [] millFS.units skipUnit rfl
    (Or.inl (by simp [UNIT_REGISTRY, skipUnit])) (by decide)

/-- C9: `suggest` returns a shallow-modified flowsheet in which each
numeric parameter of the first unit is multiplied by a factor
`0.9 + 0.2*random()` lying in `[0.9, 1.1]` (given `random() ∈ [0, 1)`),
non-numeric parameters are left untouched (general `suggest_edit`), and
all other units and all streams are unchanged. -/
theorem suggest_perturbs_first_unit (rnd : ℕ → ℚ)
    (hr : ∀ n, 0 ≤ rnd n ∧ rnd n < 1) :
    (∀ ps i, List.Forall₂
        (fun kv kv' : String × PVal => kv'.1 = kv.1 ∧
          match kv.2 with
          | .num v => ∃ f, 9/10 ≤ f ∧ f ≤ 11/10 ∧ kv'.2 = .num (v * f)
          | .nonnum s => kv'.2 = .nonnum s)
        ps (suggest_edit rnd ps i)) ∧
    (∀ ps i, List.Forall₂
        (fun kv kv' : String × ℚ => kv'.1 = kv.1 ∧
          ∃ f, 9/10 ≤ f ∧ f ≤ 11/10 ∧ kv'.2 = kv.2 * f)
        ps (suggest_edit_num rnd ps i)) ∧
    (∀ ps i, suggest_edit rnd (ps.map (fun kv => (kv.1, PVal.num kv.2))) i =
        (suggest_edit_num rnd ps i).map (fun kv => (kv.1, PVal.num kv.2))) ∧
    (∀ fs : Flowsheet, (suggest fs rnd).name = fs.name ∧
      (suggest fs rnd).streams = fs.streams ∧
      ∀ u0 rest, fs.units = u0 :: rest →
        (suggest fs rnd).units =
          { u0 with params := suggest_edit_num rnd u0.params 0 } :: rest) := by
  have hf : ∀ n, 9/10 ≤ 9/10 + (1/5) * rnd n ∧ 9/10 + (1/5) * rnd n ≤ 11/10 := by
    intro n
    obtain ⟨h0, h1⟩ := hr n
    constructor <;> linarith
  refine ⟨?_, ?_, ?_, ?_⟩
  · intro ps
    induction ps with
    | nil => intro i; exact List.Forall₂.nil
    | cons kv rest ih =>
      intro i
      obtain ⟨k, pv⟩ := kv
      cases pv with
      | num v =>
        exact List.Forall₂.cons
          ⟨rfl, ⟨9/10 + (1/5) * rnd i, (hf i).1, (hf i).2, rfl⟩⟩ (ih (i + 1))
      | nonnum s =>
        exact List.Forall₂.cons ⟨rfl, rfl⟩ (ih i)
  · intro ps
    induction ps with
    | nil => intro i; exact List.Forall₂.nil
    | cons kv rest ih =>
      intro i
      obtain ⟨k, v⟩ := kv
      exact List.Forall₂.cons
        ⟨rfl, ⟨9/10 + (1/5) * rnd i, (hf i).1, (hf i).2, rfl⟩⟩ (ih (i + 1))
  · intro ps
    induction ps with
    | nil => intro i; rfl
    | cons kv rest ih =>
      intro i
      obtain ⟨k, v⟩ := kv
      simp only [List.map_cons, suggest_edit, suggest_edit_num]
      rw [ih (i + 1)]
  · intro fs
    cases hu : fs.units with
    | nil =>
      have hs : suggest fs rnd = fs := by
        unfold suggest
        rw [hu]
      rw [hs]
      refine ⟨rfl, rfl, ?_⟩
      intro u0 rest h
      exact nomatch h
    | cons u0 rest =>
      have hs : suggest fs rnd =
          { fs with units := { u0 with params := suggest_edit_num rnd u0.params 0 } :: rest } := by
        unfold suggest
        rw [hu]
      rw [hs]
      refine ⟨rfl, rfl, ?_⟩
      rintro u0' rest' h
      obtain ⟨h1, h2⟩ := List.cons.inj h
      subst h1
      subst h2
      rfl

/-- Witness for C9 at the one-mill flowsheet and the random source that
always returns 0. -/
theorem suggest_perturbs_first_unit_witness :
    (suggest millFS (fun _ => 0)).streams = millFS.streams ∧
    (suggest millFS (fun _ => 0)).units =
      [{ id := "mill1", type := "mill",
         params := suggest_edit_num (fun _ => 0) [("fineness_factor", 1/2)] 0,
         inputs := ["feed"], outputs := ["product"] }] := by
  have h := suggest_perturbs_first_unit (fun _ => 0) (by intro n; norm_num)
  refine ⟨(h.2.2.2 millFS).2.1, ?_⟩
  exact (h.2.2.2 millFS).2.2
    { id := "mill1", type := "mill", params := [("fineness_factor", 1/2)],
      inputs := ["feed"], outputs := ["product"] } [] rfl

/-- Embedded `find?` by key commutes with filtering out a different key. -/
theorem find?_filter_ne {m : List (String × PVal)} {k c : String} (hk : k ≠ c) :
    (m.filter (fun kv => kv.1 != c)).find? (fun kv => kv.1 == k) =
      m.find? (fun kv => kv.1 == k) := by
  induction m with
  | nil => rfl
  | cons kv rest ih =>
    by_cases hb : kv.1 = c
    · have hfc : (kv.1 != c) = false := by simp [hb]
      rw [List.filter_cons, hfc]
      simp only [Bool.false_eq_true, if_false]
      have hcf : (kv.1 == k) = false := by
        rw [hb]
        exact beq_eq_false_iff_ne.mpr (Ne.symm hk)
      rw [List.find?_cons, hcf]
      exact ih
    · have hft : (kv.1 != c) = true := by simp [hb]
      rw [List.filter_cons, hft]
      simp only [if_true]
      rw [List.find?_cons, List.find?_cons]
      cases hbk : (kv.1 == k) with
      | true => rfl
      | false => exact ih

/-- C10: when `simulation_params` contains the key `"constraint"` and the
call gets past step 1, `design_process` pops that key out of the caller's
mapping in place — afterwards the mapping no longer contains the key, while
every other key is left unchanged. -/
theorem design_process_pops_constraint {σ : Type} (c : Collaborators σ)
    (initial_conditions simulation_params : List (String × PVal))
    (economic_params reactor_params : Option (List (String × PVal)))
    (primary_product : String)
    (hkey : ∃ v, simulation_params.find? (fun kv => kv.1 == "constraint") = some v)
    (hstep1 : ∃ st, c.define_state initial_conditions = .ok st) :
    (∀ kv ∈ (design_process c initial_conditions simulation_params
        economic_params reactor_params primary_product).2, kv.1 ≠ "constraint") ∧
    (∀ k, k ≠ "constraint" →
      (design_process c initial_conditions simulation_params economic_params
          reactor_params primary_product).2.find? (fun kv => kv.1 == k) =
        simulation_params.find? (fun kv => kv.1 == k)) := by
  obtain ⟨st, hst⟩ := hstep1
  obtain ⟨v, hv⟩ := hkey
  have hpost : (design_process c initial_conditions simulation_params economic_params
      reactor_params primary_product).2 =
      simulation_params.filter (fun kv => kv.1 != "constraint") := by
    unfold design_process
    rw [hst]
    dsimp only
    unfold dictPop
    rw [hv]
    dsimp only
    cases c.run_simulation initial_conditions v.2 (reactor_params.getD [])
        (simulation_params.filter (fun kv => kv.1 != "constraint")) with
    | error e => rfl
    | ok rows =>
      dsimp only
      cases c.calculate_lcop economic_params primary_product with
      | error e => rfl
      | ok l =>
        dsimp only
        cases rows.getLast? with
        | none => rfl
        | some row =>
          dsimp only
          cases c.get_cost_breakdown economic_params primary_product with
          | error e => rfl
          | ok bd => rfl
  rw [hpost]
  constructor
  · intro kv hkv
    have := List.of_mem_filter hkv
    simpa using this
  · intro k hk
    exact find?_filter_ne hk

/-- Collaborators whose state-definition step succeeds and whose later
steps fail. -/
def okC : Collaborators Unit :=
  { define_state := fun _ => .ok (),
    run_simulation := fun _ _ _ _ => .error "sim failed",
    calculate_lcop := fun _ _ => .error "econ failed",
    get_cost_breakdown := fun _ _ => .error "econ failed" }

/-- A concrete `simulation_params` dict containing a constraint. -/
def spC10 : List (String × PVal) :=
  [("constraint", .nonnum "TV"), ("duration", .nonnum "1 hour")]

/-- Witness for C10: the `"duration"` entry survives the call unchanged. -/
theorem design_process_pops_constraint_witness :
    (design_process okC [] spC10 none none "H2").2.find? (fun kv => kv.1 == "duration") =
      spC10.find? (fun kv => kv.1 == "duration") :=
  (design_process_pops_constraint okC [] spC10 none none "H2"
    ⟨("constraint", .nonnum "TV"), by decide⟩ ⟨(), rfl⟩).2 "duration" (by decide)

/-- The fold computing the minimum objective value over the evaluated
points is constant when the objective is. -/
theorem foldl_min_const (f : List ℚ → ℚ) (hobj : ∀ x, f x = 1000000000) :
    ∀ l : List (List ℚ),
      l.foldl (fun a p => min a (f p)) 1000000000 = 1000000000 := by
  intro l
  induction l with
  | nil => rfl
  | cons p rest ih =>
    rw [List.foldl_cons, hobj p, min_self]
    exact ih

/-- C2: for every single trial point at which `design_process` raises —
regardless of what happens at other trial points — the objective closure
absorbs the exception and returns the fixed penalty `1e9` for that point;
and when it raises at every trial point, the numeric search still
terminates within the iteration cap and reports `min_value = 1e9`. -/
theorem optimize_penalty_on_failure {σ : Type} (c : Collaborators σ)
    (base_ic base_sp : List (String × PVal)) (vars : List OptVar)
    (ep rp : Option (List (String × PVal))) (pp : String) :
    (∀ x : List ℚ, (∃ e, (design_process c
        (trial_dicts vars base_ic base_sp x).1
        (trial_dicts vars base_ic base_sp x).2 ep rp pp).1 = .error e) →
      objective_function c base_ic base_sp vars ep rp pp x = 1000000000) ∧
    ((∀ x : List ℚ, ∃ e, (design_process c
        (trial_dicts vars base_ic base_sp x).1
        (trial_dicts vars base_ic base_sp x).2 ep rp pp).1 = .error e) →
      (∀ x, objective_function c base_ic base_sp vars ep rp pp x = 1000000000) ∧
      (∀ (x0 : List ℚ) (bounds : List (ℚ × ℚ)) (iterations : List (List (List ℚ)))
          (maxiter : ℕ),
        (OptimizationAgent.optimize (objective_function c base_ic base_sp vars ep rp pp)
            x0 bounds iterations maxiter).min_value = 1000000000 ∧
        (OptimizationAgent.optimize (objective_function c base_ic base_sp vars ep rp pp)
            x0 bounds iterations maxiter).n_iterations ≤ maxiter)) := by
  have hpt : ∀ x : List ℚ, (∃ e, (design_process c
      (trial_dicts vars base_ic base_sp x).1
      (trial_dicts vars base_ic base_sp x).2 ep rp pp).1 = .error e) →
      objective_function c base_ic base_sp vars ep rp pp x = 1000000000 := by
    intro x hx
    obtain ⟨e, he⟩ := hx
    unfold objective_function
    dsimp only
    rw [he]
  refine ⟨hpt, fun hfail => ?_⟩
  have hobj : ∀ x, objective_function c base_ic base_sp vars ep rp pp x = 1000000000 :=
    fun x => hpt x (hfail x)
  refine ⟨hobj, ?_⟩
  intro x0 bounds iterations maxiter
  constructor
  · unfold OptimizationAgent.optimize minimizeModel
    dsimp only
    rw [List.foldl_cons, hobj x0, min_self]
    exact foldl_min_const _ hobj _
  · unfold OptimizationAgent.optimize minimizeModel
    dsimp only
    exact Nat.min_le_right _ _

/-- Collaborators that fail already at the state-definition step, so every
`design_process` call raises. -/
def failC : Collaborators Unit :=
  { define_state := fun _ => .error "state failed",
    run_simulation := fun _ _ _ _ => .error "sim failed",
    calculate_lcop := fun _ _ => .error "econ failed",
    get_cost_breakdown := fun _ _ => .error "econ failed" }

/-- Collaborators that fail only when the trial point drives the
initial-conditions entry `"T"` to 5, and otherwise complete the pipeline
with a levelized cost of 7. -/
def mixedC : Collaborators Unit :=
  { define_state := fun ic =>
      match ic.find? (fun kv => kv.1 == "T") with
      | some kv =>
        match kv.2 with
        | .num t => if t = 5 then .error "diverged" else .ok ()
        | .nonnum _ => .ok ()
      | none => .ok (),
    run_simulation := fun _ _ _ _ => .ok [[("conc", 1)]],
    calculate_lcop := fun _ _ => .ok 7,
    get_cost_breakdown := fun _ _ => .ok [] }

/-- The one optimization variable driving `mixedC`. -/
def mixedVar : OptVar :=
  { name := "T", path := ("initial_conditions", "T"), bounds := (0, 10) }

/-- Witness for C2: with `mixedC` the objective returns the 1e9 penalty at
the raising trial point `[5]` even though the neighbouring point `[3]`
evaluates normally to 7; and with always-failing collaborators an
optimization run with initial guess `[1]`, two solver iterations and cap
50 reports `min_value = 1e9` within the cap. -/
theorem optimize_penalty_on_failure_witness :
    objective_function mixedC [("T", .num 3)] [] [mixedVar] none none "H2" [5]
      = 1000000000 ∧
    objective_function mixedC [("T", .num 3)] [] [mixedVar] none none "H2" [3] = 7 ∧
    (OptimizationAgent.optimize
        (objective_function failC [] [] [] none none "H2")
        [1] [] [[[2]], [[3]]] 50).min_value = 1000000000 ∧
    (OptimizationAgent.optimize
        (objective_function failC [] [] [] none none "H2")
        [1] [] [[[2]], [[3]]] 50).n_iterations ≤ 50 := by
  refine ⟨?_, ?_, ?_⟩
  · exact (optimize_penalty_on_failure mixedC [("T", .num 3)] [] [mixedVar]
      none none "H2").1 [5] ⟨"diverged", rfl⟩
  · decide
  · exact ((optimize_penalty_on_failure failC [] [] [] none none "H2").2
      (fun _ => ⟨"state failed", rfl⟩)).2 [1] [] [[[2]], [[3]]] 50

end SepAgents
